import Mathlib

/-! Shallow embedding of scripts/generate_spritesheet.py.

The script reads a sprite size from the renderer configuration, then for each
animation descriptor renders the frames startFrame, startFrame+1, …,
endFrame-1 to intermediate PNG files, composites them into one horizontal
strip, deletes the intermediate files and saves the strip as
<basePath>\<name>.png.  The embedding turns the script into the list of
externally visible operations it performs (`programTrace`) together with a
filesystem interpreter for those operations (`step` / `runTrace`).  Rendering
is abstracted as the pure content `Content.frameImage f`: the renderer is
deterministic in the scene frame, so two images are bit-identical exactly
when their frame numbers agree. -/

/-- An animation descriptor, one element of the `animations` list. -/
structure Animation where
  name : String
  startFrame : Int
  endFrame : Int
deriving DecidableEq, Repr

/-- The configuration of the script: the sprite size read from the scene render
resolution, the hardcoded base path and image name, and the animation list. -/
structure Config where
  spriteSize : Nat
  basePath : String
  imageName : String
  animations : List Animation
deriving DecidableEq, Repr

/-- The hardcoded `basePath` of the script. -/
def srcBasePath : String := "G:\\Files\\Media\\Blender\\Spritesheet"

/-- The hardcoded `imageName` of the script. -/
def srcImageName : String := "guy"

/-- The single animation descriptor in the `animations` list of the script. -/
def walkAnimation : Animation := ⟨"walk", 1, 20⟩

/-- The configuration of the script, parameterized by the sprite size that is
read from the external scene render resolution. -/
def srcConfig (spriteSize : Nat) : Config :=
  ⟨spriteSize, srcBasePath, srcImageName, [walkAnimation]⟩

/-- The externally visible operations of the script: writes to the shared
renderer state, render invocations, and the imaging/filesystem calls. -/
inductive Event where
  | setFrame (frame : Int)
  | setFilepath (path : String)
  | render (frame : Int) (path : String)
  | newCanvas (width height : Nat)
  | openImage (path : String)
  | paste (x y : Nat) (path : String)
  | removeFile (path : String)
  | save (path : String)
deriving DecidableEq, Repr

/-- `os.path.join(base, component)` for an absolute Windows base directory with
no trailing separator and a relative component, as in the script. -/
def joinPath (base component : String) : String := base ++ "\\" ++ component

/-- `animationLength = endFrame - startFrame` (line 20). -/
def animationLength (a : Animation) : Int := a.endFrame - a.startFrame

/-- The number of loop iterations of `range(animationLength)`: the Python
`range` is empty for a nonpositive argument, which `Int.toNat` models. -/
def frameCount (a : Animation) : Nat := (animationLength a).toNat

/-- `file = os.path.join(basePath, imageName)` (line 22). -/
def framePathStem (cfg : Config) : String := joinPath cfg.basePath cfg.imageName

/-- The path of the intermediate PNG for loop index `j`:
`renderPaths[i] + str(j) + ".png"` (line 33), which is also the file the
renderer writes for `render.filepath = file + str(j)` (line 27). -/
def intermediatePath (file : String) (j : Nat) : String :=
  file ++ toString j ++ ".png"

/-- One iteration of the render loop (lines 25-28): write the scene frame,
write the render output path, invoke the renderer. -/
def renderStep (file : String) (startFrame : Int) (i : Nat) : List Event :=
  [Event.setFrame (startFrame + (i : Int)),
   Event.setFilepath (file ++ toString i),
   Event.render (startFrame + (i : Int)) (file ++ toString i)]

/-- The render loop, `for i in range(animationLength)` (lines 25-28). -/
def renderLoop (file : String) (startFrame : Int) (count : Nat) : List Event :=
  (List.range count).flatMap (renderStep file startFrame)

/-- One iteration of the inner composite loop (lines 33-38): open the
intermediate file, paste it at `(spriteSize*j, spriteSize*i)`, remove it. -/
def compositeStep (renderPaths : List String) (spriteSize : Nat) (i j : Nat) :
    List Event :=
  [Event.openImage (intermediatePath (renderPaths.getD i "") j),
   Event.paste (spriteSize * j) (spriteSize * i)
     (intermediatePath (renderPaths.getD i "") j),
   Event.removeFile (intermediatePath (renderPaths.getD i "") j)]

/-- The composite loops, `for i in range(len(renderPaths))`,
`for j in range(animationLength)` (lines 31-38). -/
def compositeLoop (renderPaths : List String) (spriteSize : Nat)
    (count : Nat) : List Event :=
  (List.range renderPaths.length).flatMap (fun i =>
    (List.range count).flatMap (fun j =>
      compositeStep renderPaths spriteSize i j))

/-- The output path of the sheet, `basePath` plus separator plus the
animation name plus `.png` (line 40). -/
def outputPath (basePath name : String) : String :=
  basePath ++ "\\" ++ name ++ ".png"

/-- The operations performed for one animation descriptor (lines 15-40):
renders, canvas allocation (`Image.new`, line 30), compositing, save. -/
def animationTrace (cfg : Config) (a : Animation) : List Event :=
  let file := framePathStem cfg
  let renderPaths : List String := [file]
  let count := frameCount a
  renderLoop file a.startFrame count
    ++ [Event.newCanvas (cfg.spriteSize * count)
          (cfg.spriteSize * renderPaths.length)]
    ++ compositeLoop renderPaths cfg.spriteSize count
    ++ [Event.save (outputPath cfg.basePath a.name)]

/-- The operations of the whole run, `for animation in animations`. -/
def programTrace (cfg : Config) : List Event :=
  cfg.animations.flatMap (animationTrace cfg)

/-- File contents: either a rendered still of one scene frame, or a composited
sprite sheet of given size whose cells record paste offset and source frame. -/
inductive Content where
  | frameImage (frame : Int)
  | sheetImage (width height : Nat) (cells : List (Nat × Nat × Int))
deriving DecidableEq, Repr

/-- Whether a content value is an intermediate rendered frame. -/
def Content.isFrame : Content → Bool
  | Content.frameImage _ => true
  | Content.sheetImage _ _ _ => false

/-- Look a path up in an association-list filesystem. -/
def lookupFile (k : String) : List (String × Content) → Option Content
  | [] => none
  | e :: fs => if e.1 = k then some e.2 else lookupFile k fs

/-- Delete a path from the filesystem (`os.remove`). -/
def eraseFile (k : String) (fs : List (String × Content)) :
    List (String × Content) :=
  fs.filter (fun e => e.1 != k)

/-- Create or overwrite the file at a path. -/
def writeFile (k : String) (v : Content) (fs : List (String × Content)) :
    List (String × Content) :=
  (k, v) :: eraseFile k fs

/-- Interpreter state: the filesystem, the current in-memory sprite sheet
canvas (size and pasted cells), and the most recently opened image. -/
structure RState where
  fs : List (String × Content)
  canvas : Option (Nat × Nat × List (Nat × Nat × Int))
  opened : Option Content
deriving DecidableEq, Repr

/-- One interpreter step.  `render` writes the frame image to the configured
path plus the `.png` extension the renderer appends; `paste` records the
opened image in the canvas cell list; `save` persists the canvas. -/
def step (st : RState) (e : Event) : RState :=
  match e with
  | Event.setFrame _ => st
  | Event.setFilepath _ => st
  | Event.render f p =>
      { st with fs := writeFile (p ++ ".png") (Content.frameImage f) st.fs }
  | Event.newCanvas w h => { st with canvas := some (w, h, []) }
  | Event.openImage p => { st with opened := lookupFile p st.fs }
  | Event.paste x y _ =>
      match st.opened, st.canvas with
      | some (Content.frameImage n), some (w, h, cells) =>
          { st with canvas := some (w, h, cells ++ [(x, y, n)]) }
      | _, _ => st
  | Event.removeFile p => { st with fs := eraseFile p st.fs }
  | Event.save p =>
      match st.canvas with
      | some (w, h, cells) =>
          { st with fs := writeFile p (Content.sheetImage w h cells) st.fs }
      | none => st

/-- Run a trace of operations from a state. -/
def runTrace (tr : List Event) (st : RState) : RState := tr.foldl step st

/-- The initial state: empty filesystem, no canvas, nothing opened. -/
def initState : RState := ⟨[], none, none⟩

/-- Run the whole script. -/
def runProgram (cfg : Config) : RState := runTrace (programTrace cfg) initState


/-- The filesystem after the render loop: the frame images written in loop
order, frame `startFrame + i` at `intermediatePath file i`. -/
def framesFS (file : String) (startFrame : Int) (count : Nat)
    (fs : List (String × Content)) : List (String × Content) :=
  (List.range count).foldl
    (fun fs i => writeFile (intermediatePath file i)
      (Content.frameImage (startFrame + (i : Int))) fs) fs

/-- The filesystem after the first `count` removals of the composite loop. -/
def purgeFS (file : String) (count : Nat) (fs : List (String × Content)) :
    List (String × Content) :=
  (List.range count).foldl
    (fun fs j => eraseFile (intermediatePath file j) fs) fs

/-- The cells of the finished sprite sheet: the frame numbered
`startFrame + j` pasted at pixel offset `(spriteSize * j, 0)`. -/
def sheetCells (spriteSize : Nat) (a : Animation) : List (Nat × Nat × Int) :=
  (List.range (frameCount a)).map
    (fun j => (spriteSize * j, 0, a.startFrame + (j : Int)))

/-- The inner composite loop for row `i = 0`, truncated to `k` iterations. -/
def compositePart (renderPaths : List String) (spriteSize : Nat) (k : Nat) :
    List Event :=
  (List.range k).flatMap (fun j => compositeStep renderPaths spriteSize 0 j)

/-- `true` when no file of the filesystem is an intermediate rendered frame. -/
def goodFS (fs : List (String × Content)) : Bool :=
  fs.all (fun e => !e.2.isFrame)

/-- Whether an event is a render invocation. -/
def Event.isRender : Event → Bool
  | Event.render _ _ => true
  | _ => false

/-- Whether an event saves the sprite sheet. -/
def Event.isSave : Event → Bool
  | Event.save _ => true
  | _ => false

/-- Whether an event allocates the canvas. -/
def Event.isNewCanvas : Event → Bool
  | Event.newCanvas _ _ => true
  | _ => false

/-- Whether an event removes a file. -/
def Event.isRemoveFile : Event → Bool
  | Event.removeFile _ => true
  | _ => false

/-- The scene frame an event mentions. -/
def Event.frameOf : Event → Int
  | Event.setFrame f => f
  | Event.render f _ => f
  | _ => 0

/-- The file path an event mentions. -/
def Event.pathOf : Event → String
  | Event.setFilepath p => p
  | Event.render _ p => p
  | Event.openImage p => p
  | Event.paste _ _ p => p
  | Event.removeFile p => p
  | Event.save p => p
  | _ => ""

/-- The scene frames of the render invocations of one animation, in order. -/
def renderedFrames (cfg : Config) (a : Animation) : List Int :=
  ((animationTrace cfg a).filter Event.isRender).map Event.frameOf

/-- The paths removed while processing one animation, in order. -/
def removalPaths (cfg : Config) (a : Animation) : List String :=
  ((animationTrace cfg a).filter Event.isRemoveFile).map Event.pathOf

/-- Run the operation list in a failure model: each operation either succeeds
or raises, and a raise propagates — the script installs no handler anywhere,
so the remaining operations are not performed.  Returns the operations that
completed and the overall outcome. -/
def execOps (fails : Event → Bool) :
    List Event → List Event × Except Event Unit
  | [] => ([], Except.ok ())
  | e :: rest =>
      if fails e then ([], Except.error e)
      else
        let r := execOps fails rest
        (e :: r.1, r.2)

/-- Numeric value of a decimal digit character. -/
def digitVal (c : Char) : Nat := c.toNat - 48

/-- Decode a list of decimal digit characters, most significant first. -/
def decodeDigits (l : List Char) : Nat :=
  l.foldl (fun a c => a * 10 + digitVal c) 0

theorem toDigitsCore_append :
    ∀ (fuel n : Nat) (acc : List Char),
      Nat.toDigitsCore 10 fuel n acc = Nat.toDigitsCore 10 fuel n [] ++ acc := by
  intro fuel
  induction fuel with
  | zero => intro n acc; rfl
  | succ fuel ih =>
    intro n acc
    by_cases h0 : n / 10 = 0
    · simp [Nat.toDigitsCore, h0]
    · simp only [Nat.toDigitsCore, h0, if_false]
      rw [ih (n / 10) (Nat.digitChar (n % 10) :: acc),
        ih (n / 10) [Nat.digitChar (n % 10)]]
      simp

theorem decodeDigits_append_singleton (l : List Char) (c : Char) :
    decodeDigits (l ++ [c]) = decodeDigits l * 10 + digitVal c := by
  simp [decodeDigits, List.foldl_append]

theorem digitVal_digitChar : ∀ m, m < 10 → digitVal (Nat.digitChar m) = m := by
  decide

theorem decodeDigits_toDigitsCore :
    ∀ (fuel n : Nat), n < fuel →
      decodeDigits (Nat.toDigitsCore 10 fuel n []) = n := by
  intro fuel
  induction fuel with
  | zero => intro n h; exact absurd h (Nat.not_lt_zero n)
  | succ fuel ih =>
    intro n h
    by_cases h0 : n / 10 = 0
    · have hn : n < 10 := by omega
      have hm : n % 10 = n := Nat.mod_eq_of_lt hn
      simp [Nat.toDigitsCore, h0, decodeDigits, hm,
        digitVal_digitChar n hn]
    · have hd : n / 10 < fuel := by omega
      simp only [Nat.toDigitsCore, h0, if_false]
      rw [toDigitsCore_append, decodeDigits_append_singleton, ih _ hd,
        digitVal_digitChar (n % 10) (by omega)]
      omega

theorem decodeDigits_repr (n : Nat) : decodeDigits (Nat.repr n).data = n :=
  decodeDigits_toDigitsCore (n + 1) n (Nat.lt_succ_self n)

theorem intermediatePath_inj {file : String} {i j : Nat}
    (h : intermediatePath file i = intermediatePath file j) : i = j := by
  have hd := congrArg String.data h
  simp only [intermediatePath, String.data_append] at hd
  have h1 : file.data ++ (toString i).data = file.data ++ (toString j).data :=
    List.append_cancel_right hd
  have h2 : (toString i).data = (toString j).data :=
    List.append_cancel_left h1
  have h3 : decodeDigits (Nat.repr i).data = decodeDigits (Nat.repr j).data :=
    congrArg decodeDigits h2
  rw [decodeDigits_repr, decodeDigits_repr] at h3
  exact h3

theorem lookupFile_eraseFile (k k' : String) (fs : List (String × Content)) :
    lookupFile k (eraseFile k' fs) =
      if k' = k then none else lookupFile k fs := by
  induction fs with
  | nil => simp [eraseFile, lookupFile]
  | cons e fs ih =>
    by_cases he : e.1 = k'
    · have h1 : eraseFile k' (e :: fs) = eraseFile k' fs := by
        simp [eraseFile, List.filter_cons, he]
      rw [h1, ih]
      by_cases hk : k' = k
      · simp [hk]
      · have hek : ¬ e.1 = k := by rw [he]; exact hk
        simp [lookupFile, hek, hk]
    · have h1 : eraseFile k' (e :: fs) = e :: eraseFile k' fs := by
        simp [eraseFile, List.filter_cons, he]
      rw [h1]
      by_cases hek : e.1 = k
      · have hk : ¬ k' = k := fun hh => he (hek.trans hh.symm)
        simp [lookupFile, hek, hk]
      · simp [lookupFile, hek, ih]

theorem lookupFile_writeFile (k k' : String) (v : Content)
    (fs : List (String × Content)) :
    lookupFile k (writeFile k' v fs) =
      if k' = k then some v else lookupFile k fs := by
  by_cases hk : k' = k
  · simp [writeFile, lookupFile, hk]
  · simp [writeFile, lookupFile, hk, lookupFile_eraseFile]

theorem mem_eraseFile {e : String × Content} {k : String}
    {fs : List (String × Content)} :
    e ∈ eraseFile k fs ↔ e ∈ fs ∧ e.1 ≠ k := by
  simp [eraseFile, List.mem_filter]

theorem mem_writeFile {e : String × Content} {k : String} {v : Content}
    {fs : List (String × Content)} (h : e ∈ writeFile k v fs) :
    e = (k, v) ∨ e ∈ fs := by
  simp only [writeFile, List.mem_cons] at h
  rcases h with h | h
  · exact Or.inl h
  · exact Or.inr (mem_eraseFile.mp h).1

theorem framesFS_succ (file : String) (s : Int) (n : Nat)
    (fs : List (String × Content)) :
    framesFS file s (n + 1) fs =
      writeFile (intermediatePath file n) (Content.frameImage (s + (n : Int)))
        (framesFS file s n fs) := by
  simp [framesFS, List.range_succ]

theorem purgeFS_succ (file : String) (n : Nat)
    (fs : List (String × Content)) :
    purgeFS file (n + 1) fs =
      eraseFile (intermediatePath file n) (purgeFS file n fs) := by
  simp [purgeFS, List.range_succ]

theorem runTrace_append (t1 t2 : List Event) (st : RState) :
    runTrace (t1 ++ t2) st = runTrace t2 (runTrace t1 st) :=
  List.foldl_append step st t1 t2

theorem runTrace_renderStep (file : String) (s : Int) (i : Nat) (st : RState) :
    runTrace (renderStep file s i) st =
      { st with
          fs := writeFile (intermediatePath file i)
                  (Content.frameImage (s + (i : Int))) st.fs } := rfl

theorem runTrace_renderLoop (file : String) (s : Int) (count : Nat)
    (st : RState) :
    runTrace (renderLoop file s count) st =
      { st with fs := framesFS file s count st.fs } := by
  induction count with
  | zero => rfl
  | succ n ih =>
    have h1 : renderLoop file s (n + 1) =
        renderLoop file s n ++ renderStep file s n := by
      simp [renderLoop, List.range_succ]
    rw [h1, runTrace_append, ih, runTrace_renderStep, framesFS_succ]

theorem lookupFile_framesFS (file : String) (s : Int) (count j : Nat)
    (fs : List (String × Content)) :
    lookupFile (intermediatePath file j) (framesFS file s count fs) =
      if j < count then some (Content.frameImage (s + (j : Int)))
      else lookupFile (intermediatePath file j) fs := by
  induction count with
  | zero => simp [framesFS]
  | succ n ih =>
    rw [framesFS_succ, lookupFile_writeFile]
    by_cases hj : j = n
    · subst hj; simp
    · have hne : ¬ intermediatePath file n = intermediatePath file j :=
        fun hh => hj (intermediatePath_inj hh).symm
      rw [if_neg hne, ih]
      by_cases hlt : j < n
      · simp [hlt, Nat.lt_succ_of_lt hlt]
      · have h2 : ¬ j < n + 1 := by omega
        simp [hlt, h2]

theorem lookupFile_purgeFS (file : String) (count j : Nat)
    (fs : List (String × Content)) :
    lookupFile (intermediatePath file j) (purgeFS file count fs) =
      if j < count then none
      else lookupFile (intermediatePath file j) fs := by
  induction count with
  | zero => simp [purgeFS]
  | succ n ih =>
    rw [purgeFS_succ, lookupFile_eraseFile]
    by_cases hj : j = n
    · subst hj; simp
    · have hne : ¬ intermediatePath file n = intermediatePath file j :=
        fun hh => hj (intermediatePath_inj hh).symm
      rw [if_neg hne, ih]
      by_cases hlt : j < n
      · simp [hlt, Nat.lt_succ_of_lt hlt]
      · have h2 : ¬ j < n + 1 := by omega
        simp [hlt, h2]

theorem mem_framesFS {e : String × Content} (file : String) (s : Int)
    {fs : List (String × Content)} :
    ∀ count, e ∈ framesFS file s count fs →
      e ∈ fs ∨ ∃ i, i < count ∧
        e = (intermediatePath file i, Content.frameImage (s + (i : Int))) := by
  intro count
  induction count with
  | zero => intro h; exact Or.inl h
  | succ n ih =>
    intro h
    rw [framesFS_succ] at h
    rcases mem_writeFile h with h1 | h1
    · exact Or.inr ⟨n, by omega, h1⟩
    · rcases ih h1 with h2 | ⟨i, hi, he⟩
      · exact Or.inl h2
      · exact Or.inr ⟨i, by omega, he⟩

theorem mem_purgeFS {e : String × Content} (file : String)
    {fs : List (String × Content)} :
    ∀ count, e ∈ purgeFS file count fs →
      e ∈ fs ∧ ∀ j, j < count → e.1 ≠ intermediatePath file j := by
  intro count
  induction count with
  | zero => intro h; exact ⟨h, fun j hj => absurd hj (Nat.not_lt_zero j)⟩
  | succ n ih =>
    intro h
    rw [purgeFS_succ] at h
    have h1 := mem_eraseFile.mp h
    have h2 := ih h1.1
    refine ⟨h2.1, ?_⟩
    intro j hj
    by_cases hjn : j = n
    · subst hjn; exact h1.2
    · exact h2.2 j (by omega)

theorem runTrace_compositeStep (file : String) (S n : Nat)
    (P : List (String × Content)) (W H : Nat) (C : List (Nat × Nat × Int))
    (op : Option Content) (f : Int)
    (hlook : lookupFile (intermediatePath file n) P =
      some (Content.frameImage f)) :
    runTrace (compositeStep [file] S 0 n) ⟨P, some (W, H, C), op⟩ =
      ⟨eraseFile (intermediatePath file n) P,
       some (W, H, C ++ [(S * n, 0, f)]), some (Content.frameImage f)⟩ := by
  have e1 : runTrace (compositeStep [file] S 0 n) ⟨P, some (W, H, C), op⟩ =
      step (step ⟨P, some (W, H, C), lookupFile (intermediatePath file n) P⟩
        (Event.paste (S * n) (S * 0) (intermediatePath file n)))
        (Event.removeFile (intermediatePath file n)) := rfl
  rw [e1, hlook]
  rfl

theorem runTrace_compositePart (file : String) (S : Nat) (s : Int) (L : Nat)
    (F : List (String × Content)) (W H : Nat) :
    ∀ k, k ≤ L → ∀ op : Option Content,
      ∃ op2 : Option Content,
        runTrace (compositePart [file] S k)
          ⟨framesFS file s L F, some (W, H, []), op⟩ =
        ⟨purgeFS file k (framesFS file s L F),
         some (W, H,
           (List.range k).map (fun j => (S * j, 0, s + (j : Int)))), op2⟩ := by
  intro k
  induction k with
  | zero => intro hk op; exact ⟨op, rfl⟩
  | succ n ih =>
    intro hk op
    obtain ⟨op2, h2⟩ := ih (by omega) op
    have hsplit : compositePart [file] S (n + 1) =
        compositePart [file] S n ++ compositeStep [file] S 0 n := by
      simp [compositePart, List.range_succ]
    rw [hsplit, runTrace_append, h2]
    have hlook : lookupFile (intermediatePath file n)
        (purgeFS file n (framesFS file s L F)) =
        some (Content.frameImage (s + (n : Int))) := by
      rw [lookupFile_purgeFS]
      have h3 : ¬ n < n := by omega
      rw [if_neg h3, lookupFile_framesFS, if_pos (by omega : n < L)]
    rw [runTrace_compositeStep file S n _ W H _ op2 _ hlook]
    refine ⟨some (Content.frameImage (s + (n : Int))), ?_⟩
    rw [← purgeFS_succ]
    simp [List.range_succ]

theorem compositeLoop_eq_part (file : String) (S L : Nat) :
    compositeLoop [file] S L = compositePart [file] S L := by
  have h0 : List.range 1 = [0] := rfl
  simp [compositeLoop, compositePart, h0]

theorem runTrace_animationTrace (cfg : Config) (a : Animation) (st : RState) :
    ∃ op, runTrace (animationTrace cfg a) st =
      ⟨writeFile (outputPath cfg.basePath a.name)
         (Content.sheetImage (cfg.spriteSize * frameCount a)
           (cfg.spriteSize * 1) (sheetCells cfg.spriteSize a))
         (purgeFS (framePathStem cfg) (frameCount a)
           (framesFS (framePathStem cfg) a.startFrame (frameCount a) st.fs)),
       some (cfg.spriteSize * frameCount a, cfg.spriteSize * 1,
         sheetCells cfg.spriteSize a),
       op⟩ := by
  obtain ⟨op2, hcomp⟩ := runTrace_compositePart (framePathStem cfg)
    cfg.spriteSize a.startFrame (frameCount a) st.fs
    (cfg.spriteSize * frameCount a) (cfg.spriteSize * 1)
    (frameCount a) (le_refl _) st.opened
  refine ⟨op2, ?_⟩
  have h1 : animationTrace cfg a =
      renderLoop (framePathStem cfg) a.startFrame (frameCount a)
        ++ [Event.newCanvas (cfg.spriteSize * frameCount a)
              (cfg.spriteSize * 1)]
        ++ compositeLoop [framePathStem cfg] cfg.spriteSize (frameCount a)
        ++ [Event.save (outputPath cfg.basePath a.name)] := rfl
  rw [h1, runTrace_append, runTrace_append, runTrace_append,
    runTrace_renderLoop]
  have h2 : runTrace [Event.newCanvas (cfg.spriteSize * frameCount a)
        (cfg.spriteSize * 1)]
      { st with
          fs := framesFS (framePathStem cfg) a.startFrame (frameCount a)
                  st.fs } =
      (⟨framesFS (framePathStem cfg) a.startFrame (frameCount a) st.fs,
        some (cfg.spriteSize * frameCount a, cfg.spriteSize * 1, []),
        st.opened⟩ : RState) := rfl
  rw [h2, compositeLoop_eq_part, hcomp]
  rfl

theorem goodFS_animationTrace (cfg : Config) (a : Animation) (st : RState)
    (h : goodFS st.fs = true) :
    goodFS (runTrace (animationTrace cfg a) st).fs = true := by
  obtain ⟨op, hrun⟩ := runTrace_animationTrace cfg a st
  rw [hrun]
  simp only [goodFS, List.all_eq_true]
  intro e he
  rcases mem_writeFile he with h1 | h1
  · rw [h1]; rfl
  · obtain ⟨h3, h4⟩ := mem_purgeFS (framePathStem cfg) (frameCount a) h1
    rcases mem_framesFS (framePathStem cfg) a.startFrame (frameCount a) h3
      with h5 | ⟨i, hi, he2⟩
    · exact List.all_eq_true.mp h e h5
    · exact absurd (congrArg Prod.fst he2) (h4 i hi)

theorem goodFS_flatMapAnims (cfg : Config) :
    ∀ (l : List Animation) (st : RState), goodFS st.fs = true →
      goodFS (runTrace (l.flatMap (animationTrace cfg)) st).fs = true := by
  intro l
  induction l with
  | nil => intro st h; exact h
  | cons a l ih =>
    intro st h
    rw [List.flatMap_cons, runTrace_append]
    exact ih _ (goodFS_animationTrace cfg a st h)

theorem filter_flatMap_list {α β : Type} (l : List α) (g : α → List β)
    (p : β → Bool) :
    (l.flatMap g).filter p = l.flatMap (fun x => (g x).filter p) := by
  induction l with
  | nil => rfl
  | cons a l ih => simp [List.flatMap_cons, List.filter_append, ih]

theorem flatMap_singleton_eq_map {α β : Type} (l : List α) (f : α → β) :
    l.flatMap (fun x => [f x]) = l.map f := by
  induction l with
  | nil => rfl
  | cons a l ih => simp [List.flatMap_cons, ih]

theorem flatMap_nil_fun {α β : Type} (l : List α) :
    l.flatMap (fun _ => ([] : List β)) = [] := by
  induction l with
  | nil => rfl
  | cons a l ih => simp [List.flatMap_cons, ih]

theorem animationTrace_eq (cfg : Config) (a : Animation) :
    animationTrace cfg a =
      renderLoop (framePathStem cfg) a.startFrame (frameCount a)
        ++ [Event.newCanvas (cfg.spriteSize * frameCount a)
              (cfg.spriteSize * 1)]
        ++ compositeLoop [framePathStem cfg] cfg.spriteSize (frameCount a)
        ++ [Event.save (outputPath cfg.basePath a.name)] := rfl

theorem filter_isRender_animationTrace (cfg : Config) (a : Animation) :
    (animationTrace cfg a).filter Event.isRender =
      (List.range (frameCount a)).map
        (fun i : Nat => Event.render (a.startFrame + (i : Int))
          (framePathStem cfg ++ toString i)) := by
  have h0 : List.range 1 = [0] := rfl
  rw [animationTrace_eq]
  simp [renderLoop, compositeLoop, filter_flatMap_list, renderStep,
    compositeStep, Event.isRender, flatMap_nil_fun, flatMap_singleton_eq_map,
    List.filter, h0]

theorem filter_isSave_animationTrace (cfg : Config) (a : Animation) :
    (animationTrace cfg a).filter Event.isSave =
      [Event.save (outputPath cfg.basePath a.name)] := by
  have h0 : List.range 1 = [0] := rfl
  rw [animationTrace_eq]
  simp [renderLoop, compositeLoop, filter_flatMap_list, renderStep,
    compositeStep, Event.isSave, flatMap_nil_fun, List.filter, h0]

theorem filter_isNewCanvas_animationTrace (cfg : Config) (a : Animation) :
    (animationTrace cfg a).filter Event.isNewCanvas =
      [Event.newCanvas (cfg.spriteSize * frameCount a)
        (cfg.spriteSize * 1)] := by
  have h0 : List.range 1 = [0] := rfl
  rw [animationTrace_eq]
  simp [renderLoop, compositeLoop, filter_flatMap_list, renderStep,
    compositeStep, Event.isNewCanvas, flatMap_nil_fun, List.filter, h0]

theorem filter_isRemoveFile_animationTrace (cfg : Config) (a : Animation) :
    (animationTrace cfg a).filter Event.isRemoveFile =
      (List.range (frameCount a)).map
        (fun j => Event.removeFile
          (intermediatePath (framePathStem cfg) j)) := by
  have h0 : List.range 1 = [0] := rfl
  rw [animationTrace_eq]
  simp [renderLoop, compositeLoop, filter_flatMap_list, renderStep,
    compositeStep, Event.isRemoveFile, flatMap_nil_fun,
    flatMap_singleton_eq_map, List.filter, h0]

theorem renderedFrames_eq (cfg : Config) (a : Animation) :
    renderedFrames cfg a =
      (List.range (frameCount a)).map
        (fun i : Nat => a.startFrame + (i : Int)) := by
  rw [renderedFrames, filter_isRender_animationTrace, List.map_map]
  rfl

theorem removalPaths_eq (cfg : Config) (a : Animation) :
    removalPaths cfg a =
      (List.range (frameCount a)).map
        (fun j => intermediatePath (joinPath cfg.basePath cfg.imageName) j) := by
  rw [removalPaths, filter_isRemoveFile_animationTrace, List.map_map]
  rfl

theorem precedes_core (file : String) (s : Int) :
    ∀ (idxs : List Nat) (tail : List Event),
      (∀ f p, Event.render f p ∉ tail) →
      ∀ (pre : List Event) (f : Int) (p : String) (post : List Event),
        idxs.flatMap (renderStep file s) ++ tail =
          pre ++ Event.render f p :: post →
        ∃ pre2, pre = pre2 ++ [Event.setFrame f, Event.setFilepath p] := by
  intro idxs
  induction idxs with
  | nil =>
    intro tail htail pre f p post h
    exfalso
    apply htail f p
    have h2 : tail = pre ++ Event.render f p :: post := h
    rw [h2]
    exact List.mem_append_right pre (List.mem_cons_self _ _)
  | cons i idxs ih =>
    intro tail htail pre f p post h
    have hflat : (i :: idxs).flatMap (renderStep file s) ++ tail =
        Event.setFrame (s + (i : Int)) ::
        Event.setFilepath (file ++ toString i) ::
        Event.render (s + (i : Int)) (file ++ toString i) ::
        (idxs.flatMap (renderStep file s) ++ tail) := rfl
    rw [hflat] at h
    rcases pre with _ | ⟨e1, _ | ⟨e2, _ | ⟨e3, pre3⟩⟩⟩
    · simp at h
    · simp at h
    · simp only [List.cons_append, List.nil_append, List.cons.injEq] at h
      obtain ⟨h1, h2, h3, h4⟩ := h
      refine ⟨[], ?_⟩
      have h5 : Event.render (s + (i : Int)) (file ++ toString i) =
          Event.render f p := h3
      have h6 : s + (i : Int) = f := by injection h5
      have h7 : file ++ toString i = p := by injection h5
      simp [← h1, ← h2, h6, h7]
    · simp only [List.cons_append, List.cons.injEq] at h
      obtain ⟨h1, h2, h3, h4⟩ := h
      obtain ⟨pre2, hp⟩ := ih tail htail pre3 f p post h4
      exact ⟨e1 :: e2 :: e3 :: pre2, by simp [hp]⟩

theorem render_not_mem_finish (cfg : Config) (a : Animation)
    (f : Int) (p : String) :
    Event.render f p ∉
      [Event.newCanvas (cfg.spriteSize * frameCount a)
        (cfg.spriteSize * 1)]
      ++ compositeLoop [framePathStem cfg] cfg.spriteSize (frameCount a)
      ++ [Event.save (outputPath cfg.basePath a.name)] := by
  intro hmem
  simp [compositeLoop, compositeStep, List.mem_flatMap] at hmem

theorem execOps_aborts (fails : Event → Bool) :
    ∀ ops : List Event, (∃ e ∈ ops, fails e = true) →
      ∃ pre e post, ops = pre ++ e :: post ∧
        (∀ e2 ∈ pre, fails e2 = false) ∧ fails e = true ∧
        execOps fails ops = (pre, Except.error e) := by
  intro ops
  induction ops with
  | nil =>
    intro hex
    obtain ⟨e, he, _⟩ := hex
    exact absurd he (List.not_mem_nil e)
  | cons a ops ih =>
    intro hex
    by_cases ha : fails a = true
    · exact ⟨[], a, ops, rfl, by simp, ha, by simp [execOps, ha]⟩
    · have ha2 : fails a = false := by
        revert ha; cases fails a <;> simp
      have hex2 : ∃ e ∈ ops, fails e = true := by
        obtain ⟨e, he, hf⟩ := hex
        rcases List.mem_cons.mp he with rfl | hmem
        · exact absurd hf ha
        · exact ⟨e, hmem, hf⟩
      obtain ⟨pre, e, post, h1, h2, h3, h4⟩ := ih hex2
      refine ⟨a :: pre, e, post, by simp [h1], ?_, h3, ?_⟩
      · intro e2 he2
        rcases List.mem_cons.mp he2 with rfl | hm
        · exact ha2
        · exact h2 e2 hm
      · simp [execOps, ha2, h4]

/-- C1: for every animation descriptor with endFrame ≥ startFrame, the run
performs exactly endFrame - startFrame render invocations, at scene frames
startFrame, startFrame+1, …, endFrame-1, and the frame numbered endFrame is
never rendered. -/
theorem c1_renders_exclude_endFrame (cfg : Config) (a : Animation)
    (h : a.startFrame ≤ a.endFrame) :
    ((renderedFrames cfg a).length : Int) = a.endFrame - a.startFrame ∧
    (∀ f : Int, f ∈ renderedFrames cfg a ↔
      a.startFrame ≤ f ∧ f < a.endFrame) ∧
    a.endFrame ∉ renderedFrames cfg a := by
  have hL : ((frameCount a : Nat) : Int) = a.endFrame - a.startFrame := by
    rw [frameCount, animationLength]; omega
  rw [renderedFrames_eq]
  refine ⟨?_, ?_, ?_⟩
  · rw [List.length_map, List.length_range]; exact hL
  · intro f
    rw [List.mem_map]
    constructor
    · rintro ⟨i, hi, rfl⟩
      rw [List.mem_range] at hi
      omega
    · intro hf
      exact ⟨(f - a.startFrame).toNat, List.mem_range.mpr (by omega), by omega⟩
  · rw [List.mem_map]
    rintro ⟨i, hi, hc⟩
    rw [List.mem_range] at hi
    omega

/-- Witness for C1 at the walk animation of the script. -/
theorem c1_renders_exclude_endFrame_witness :
    ((renderedFrames (srcConfig 64) walkAnimation).length : Int) =
      walkAnimation.endFrame - walkAnimation.startFrame ∧
    (∀ f : Int, f ∈ renderedFrames (srcConfig 64) walkAnimation ↔
      walkAnimation.startFrame ≤ f ∧ f < walkAnimation.endFrame) ∧
    walkAnimation.endFrame ∉ renderedFrames (srcConfig 64) walkAnimation :=
  c1_renders_exclude_endFrame (srcConfig 64) walkAnimation (by decide)

set_option maxRecDepth 10000 in
/-- C2: the canvas is allocated with width spriteSize*L and height
spriteSize*R where L = endFrame - startFrame and R = 1 is the number of
render-path entries; in particular the walk animation of the script with
spriteSize = 64 saves walk.png as a 1216×64 sheet. -/
theorem c2_canvas_size :
    (∀ (cfg : Config) (a : Animation), a.startFrame ≤ a.endFrame →
      ∃ L : Nat, (L : Int) = a.endFrame - a.startFrame ∧
        (animationTrace cfg a).filter Event.isNewCanvas =
          [Event.newCanvas (cfg.spriteSize * L) (cfg.spriteSize * 1)]) ∧
    lookupFile (outputPath srcBasePath "walk")
        (runProgram (srcConfig 64)).fs =
      some (Content.sheetImage 1216 64 (sheetCells 64 walkAnimation)) := by
  constructor
  · intro cfg a h
    refine ⟨frameCount a, ?_, filter_isNewCanvas_animationTrace cfg a⟩
    rw [frameCount, animationLength]; omega
  · rfl

/-- Witness for C2 at the walk animation of the script. -/
theorem c2_canvas_size_witness :
    ∃ L : Nat, (L : Int) = walkAnimation.endFrame - walkAnimation.startFrame ∧
      (animationTrace (srcConfig 64) walkAnimation).filter Event.isNewCanvas =
        [Event.newCanvas (64 * L) (64 * 1)] :=
  c2_canvas_size.1 (srcConfig 64) walkAnimation (by decide)

/-- C3: for every animation descriptor, the saved sheet holds frame j of the
animation at pixel offset (spriteSize * j, spriteSize * i) with i = 0 the
row index, and each pasted cell is bit-identical to the rendered source
frame, i.e. carries exactly the content the renderer wrote for scene frame
startFrame + j.  Stated for a run of the animation from any starting
state. -/
theorem c3_paste_offsets (cfg : Config) (a : Animation) (st : RState) :
    lookupFile (outputPath cfg.basePath a.name)
        ((runTrace (animationTrace cfg a) st).fs) =
      some (Content.sheetImage (cfg.spriteSize * frameCount a)
        (cfg.spriteSize * 1)
        ((List.range (frameCount a)).map
          (fun j : Nat => (cfg.spriteSize * j, cfg.spriteSize * 0,
            a.startFrame + (j : Int))))) := by
  obtain ⟨op, hrun⟩ := runTrace_animationTrace cfg a st
  rw [hrun]
  simp [lookupFile_writeFile, sheetCells]

/-- C4: after the whole run, no file of the final filesystem is an
intermediate rendered frame: every per-frame PNG created by the renderer has
been deleted after being composited. -/
theorem c4_no_intermediate_remains (cfg : Config) :
    goodFS (runProgram cfg).fs = true :=
  goodFS_flatMapAnims cfg cfg.animations initState rfl

/-- C5: the run performs exactly one save per animation descriptor, in list
order, each to the base directory under the name of the descriptor with the
`.png` suffix. -/
theorem c5_one_save_per_animation (cfg : Config) :
    (programTrace cfg).filter Event.isSave =
      cfg.animations.map
        (fun a => Event.save (outputPath cfg.basePath a.name)) := by
  rw [programTrace, filter_flatMap_list]
  simp only [filter_isSave_animationTrace]
  exact flatMap_singleton_eq_map cfg.animations _

/-- C6: with an empty animations list the run performs no operations at all —
in particular no renders — and the final filesystem is empty, so no output
or intermediate file is written. -/
theorem c6_empty_animations (cfg : Config) (h : cfg.animations = []) :
    programTrace cfg = [] ∧ (runProgram cfg).fs = [] := by
  have h1 : programTrace cfg = [] := by rw [programTrace, h]; rfl
  refine ⟨h1, ?_⟩
  rw [runProgram, h1]
  rfl

/-- Witness for C6 with the constants of the script and no animations. -/
theorem c6_empty_animations_witness :
    programTrace ⟨64, srcBasePath, srcImageName, []⟩ = [] ∧
    (runProgram ⟨64, srcBasePath, srcImageName, []⟩).fs = [] :=
  c6_empty_animations ⟨64, srcBasePath, srcImageName, []⟩ rfl

/-- C7: within an animation the rendered scene frames are strictly
increasing, and every render invocation is immediately preceded by the two
writes of the shared renderer state it consumes: the scene frame and then
the render output path, with exactly the values the render uses. -/
theorem c7_render_order_and_state_writes (cfg : Config) (a : Animation) :
    List.Pairwise (fun x y => x < y) (renderedFrames cfg a) ∧
    (∀ (pre : List Event) (f : Int) (p : String) (post : List Event),
      animationTrace cfg a = pre ++ Event.render f p :: post →
      ∃ pre2, pre = pre2 ++ [Event.setFrame f, Event.setFilepath p]) := by
  constructor
  · rw [renderedFrames_eq, List.pairwise_map]
    have h := List.pairwise_lt_range (frameCount a)
    exact h.imp (fun hxy => by omega)
  · intro pre f p post h
    have h2 : (List.range (frameCount a)).flatMap
        (renderStep (framePathStem cfg) a.startFrame) ++
        ([Event.newCanvas (cfg.spriteSize * frameCount a)
            (cfg.spriteSize * 1)]
          ++ compositeLoop [framePathStem cfg] cfg.spriteSize (frameCount a)
          ++ [Event.save (outputPath cfg.basePath a.name)]) =
        pre ++ Event.render f p :: post := by
      rw [← h, animationTrace_eq]
      simp [renderLoop, List.append_assoc]
    exact precedes_core (framePathStem cfg) a.startFrame
      (List.range (frameCount a)) _
      (fun f2 p2 => render_not_mem_finish cfg a f2 p2)
      pre f p post h2

/-- Witness for C7: the first render of a one-frame animation is preceded by
the matching setFrame and setFilepath writes. -/
theorem c7_render_order_and_state_writes_witness :
    ∃ pre2, [Event.setFrame 0, Event.setFilepath "b\\g0"] =
      pre2 ++ [Event.setFrame 0, Event.setFilepath "b\\g0"] :=
  (c7_render_order_and_state_writes ⟨1, "b", "g", []⟩ ⟨"a", 0, 1⟩).2
    [Event.setFrame 0, Event.setFilepath "b\\g0"] 0 "b\\g0"
    [Event.newCanvas 1 1, Event.openImage "b\\g0.png",
     Event.paste 0 0 "b\\g0.png", Event.removeFile "b\\g0.png",
     Event.save "b\\a.png"]
    (by decide)

/-- C8: if any operation of the run fails, the failure propagates unhandled:
the run aborts at the first failing operation with that error, all earlier
operations having succeeded and none of the later ones being performed —
there is no handler, retry or partial-result recovery on any path. -/
theorem c8_failure_aborts_run (cfg : Config) (fails : Event → Bool)
    (h : ∃ e ∈ programTrace cfg, fails e = true) :
    ∃ pre e post, programTrace cfg = pre ++ e :: post ∧
      (∀ e2 ∈ pre, fails e2 = false) ∧ fails e = true ∧
      execOps fails (programTrace cfg) = (pre, Except.error e) :=
  execOps_aborts fails (programTrace cfg) h

/-- Witness for C8: a failing render invocation aborts a one-animation run. -/
theorem c8_failure_aborts_run_witness :
    ∃ pre e post,
      programTrace ⟨1, "b", "g", [⟨"a", 0, 1⟩]⟩ = pre ++ e :: post ∧
      (∀ e2 ∈ pre, Event.isRender e2 = false) ∧ Event.isRender e = true ∧
      execOps Event.isRender (programTrace ⟨1, "b", "g", [⟨"a", 0, 1⟩]⟩) =
        (pre, Except.error e) :=
  c8_failure_aborts_run ⟨1, "b", "g", [⟨"a", 0, 1⟩]⟩ Event.isRender
    (by decide)

/-- C9: an animation descriptor with endFrame = startFrame renders no frames,
yet a canvas of width 0 and height spriteSize is allocated and an output
file for the animation is still saved, holding that empty sheet. -/
theorem c9_zero_length_animation (cfg : Config) (a : Animation) (st : RState)
    (h : a.endFrame = a.startFrame) :
    (animationTrace cfg a).filter Event.isRender = [] ∧
    (animationTrace cfg a).filter Event.isNewCanvas =
      [Event.newCanvas 0 cfg.spriteSize] ∧
    lookupFile (outputPath cfg.basePath a.name)
        ((runTrace (animationTrace cfg a) st).fs) =
      some (Content.sheetImage 0 cfg.spriteSize []) := by
  have hc : frameCount a = 0 := by rw [frameCount, animationLength]; omega
  refine ⟨?_, ?_, ?_⟩
  · rw [filter_isRender_animationTrace, hc]; rfl
  · rw [filter_isNewCanvas_animationTrace, hc]
    simp
  · obtain ⟨op, hrun⟩ := runTrace_animationTrace cfg a st
    rw [hrun]
    simp [lookupFile_writeFile, sheetCells, hc]

/-- Witness for C9 on a zero-length animation with the constants of the
script. -/
theorem c9_zero_length_animation_witness :
    (animationTrace (srcConfig 64) ⟨"idle", 5, 5⟩).filter Event.isRender
      = [] ∧
    (animationTrace (srcConfig 64) ⟨"idle", 5, 5⟩).filter Event.isNewCanvas
      = [Event.newCanvas 0 64] ∧
    lookupFile (outputPath srcBasePath "idle")
        ((runTrace (animationTrace (srcConfig 64) ⟨"idle", 5, 5⟩)
          initState).fs) =
      some (Content.sheetImage 0 64 []) :=
  c9_zero_length_animation (srcConfig 64) ⟨"idle", 5, 5⟩ initState rfl

/-- C10: the intermediate frame paths are the base path joined with the
image name, followed by the loop index and the `.png` the renderer appends;
they depend only on those globals and the index — never on the name or the
startFrame of the animation — so animations of equal length reuse the same
temporary paths. -/
theorem c10_intermediate_paths_shared :
    (∀ (cfg : Config) (a : Animation), removalPaths cfg a =
      (List.range (frameCount a)).map
        (fun j => intermediatePath
          (joinPath cfg.basePath cfg.imageName) j)) ∧
    (∀ (cfg : Config) (a b : Animation), frameCount a = frameCount b →
      removalPaths cfg a = removalPaths cfg b) := by
  refine ⟨removalPaths_eq, ?_⟩
  intro cfg a b hab
  rw [removalPaths_eq, removalPaths_eq, hab]

/-- Witness for C10: two animations of equal length but different names and
frame ranges remove exactly the same intermediate paths. -/
theorem c10_intermediate_paths_shared_witness :
    removalPaths (srcConfig 64) walkAnimation =
      removalPaths (srcConfig 64) ⟨"run", 100, 119⟩ :=
  c10_intermediate_paths_shared.2 (srcConfig 64) walkAnimation
    ⟨"run", 100, 119⟩ (by decide)
